import Mathlib

/-!
Verification of the boundary layer of the mpv-rs wrapper (src/wrapper.rs).

The native mpv library is modelled by explicit environments: every native
entry point the wrapper may invoke is recorded in a trace of NCall values,
and the status codes and pointers the native side would return are supplied
by environment parameters. Rust Result becomes Except, raw pointers that
carry data become explicit payload values, and CString construction is a
check for an embedded NUL character.
-/

/-- The error taxonomy of wrapper.rs (mod errors, lines 30-42). The Rust
Loadfiles variant stores the inner error behind an Rc; the reference count
is a memory-management detail, so here the inner error is stored directly. -/
inductive Error where
  | Loadfiles (index : Nat) (error : Error)
  | VersionMismatch (linked loaded : Nat)
  | InvalidUtf8
  | Null
  | Raw (code : Int)
  deriving Repr, DecidableEq

/-- Rust std NulError: a CString construction found an embedded NUL byte.
The position payload is unused by the wrapper, so it is dropped. -/
structure NulError where
  deriving Repr, DecidableEq

/-- From NulError for Error (wrapper.rs lines 44-48): every NulError is
converted to the Null variant, whatever its contents. -/
def Error.fromNulError : NulError → Error := fun _ => Error.Null

/-- Whether a host string contains an embedded NUL character, which makes
CString construction fail. -/
def hasNul (s : String) : Bool := s.data.any (fun c => c = Char.ofNat 0)

/-- Model of std CString construction: fails with NulError when the string
contains an embedded NUL byte, otherwise yields the same text (the
NUL-terminated buffer carries exactly the bytes of the string). -/
def CString.make (s : String) : Except NulError String :=
  if hasNul s then Except.error ⟨⟩ else Except.ok s

/-- The Format enumeration of wrapper.rs lines 281-286: the subset of
mpv_format used by the public API. -/
inductive Format where
  | String
  | Flag
  | Int64
  | Double
  deriving Repr, DecidableEq

/-- Modelled from the spec: the native numeric format tags come from the
generated mpv-sys bindings (client.h mpv_format constants), which are not
part of the wrapper source; the spec describes them as the numeric codes
identifying the wire layout of string, flag, int64 and double. The values
are the documented libmpv ones. -/
def mpvFormatString : Nat := 1

/-- Modelled from the spec: native tag for the flag format. -/
def mpvFormatFlag : Nat := 3

/-- Modelled from the spec: native tag for the int64 format. -/
def mpvFormatInt64 : Nat := 4

/-- Modelled from the spec: native tag for the double format. -/
def mpvFormatDouble : Nat := 5

/-- Format::as_mpv_format (wrapper.rs lines 289-296): the match from the
abstract Format enumeration to the native numeric tag. -/
def Format.as_mpv_format : Format → Nat
  | Format.String => mpvFormatString
  | Format.Flag => mpvFormatFlag
  | Format.Int64 => mpvFormatInt64
  | Format.Double => mpvFormatDouble

/-- What a write operation passes through the untyped c_void pointer: the
kind of storage whose address reaches the native side, together with the
value that storage holds. boolAddr (the address of a bool-sized value) is
what the default SetData implementation would pass for a bool; the code
never constructs it - the bool implementation overrides the default and
passes the address of a fresh i64 instead (wrapper.rs lines 190-201). -/
inductive CPayload where
  | boolAddr (b : Bool)
  | int64Addr (v : Int)
  | strPtrAddr (s : String)
  deriving Repr, DecidableEq

/-- The native entry points the modelled wrapper code can invoke. A list of
NCall values is the trace of native calls an operation performed, in
order. -/
inductive NCall where
  | clientApiVersion
  | create
  | initCtx
  | terminateDestroy
  | commandString (text : String)
  | setProperty (name : String) (fmt : Nat) (data : CPayload)
  | getProperty (name : String) (fmt : Nat)
  deriving Repr, DecidableEq

/-- mpv_err (wrapper.rs lines 115-121): translate a native status code,
keeping the successful value on code 0 and wrapping any other code in the
Raw variant. -/
def mpv_err {α : Type} (ret : α) (err : Int) : Except Error α :=
  if err = 0 then Except.ok ret else Except.error (Error.Raw err)

/-- The command text assembly of Mpv::command (wrapper.rs lines 395-402):
start from the command name and push a space followed by each argument
token. -/
def Mpv.commandText (name : String) (args : List String) : String :=
  args.foldl (fun acc e => acc ++ " " ++ e) name

/-- Mpv::command (wrapper.rs lines 394-408). The environment maps the
NUL-terminated command text to the status code mpv_command_string would
return. The result pairs the trace of native calls with the returned
value. -/
def Mpv.command (env : String → Int) (name : String) (args : List String) :
    List NCall × Except Error Unit :=
  let cmd := Mpv.commandText name args
  match CString.make cmd with
  | Except.error e => ([], Except.error (Error.fromNulError e))
  | Except.ok raw => ([NCall.commandString raw], mpv_err () (env raw))

/-- The native integer the bool write path stages (wrapper.rs line 193):
a fresh i64 holding 1 for true and 0 for false. -/
def boolNativeRepr (b : Bool) : Int := if b then 1 else 0

/-- SetData for bool, call_as_c_void (wrapper.rs lines 190-201): widen the
bool to a fresh i64 and hand the callback the address of that integer,
never the address of the bool itself. -/
def boolCallAsCVoid {T : Type} (b : Bool)
    (f : CPayload → List NCall × Except Error T) :
    List NCall × Except Error T :=
  f (CPayload.int64Addr (boolNativeRepr b))

/-- The default SetData::call_as_c_void (wrapper.rs lines 139-144) at type
i64: pass the address of the value itself, which already is an i64. -/
def i64CallAsCVoid {T : Type} (v : Int)
    (f : CPayload → List NCall × Except Error T) :
    List NCall × Except Error T :=
  f (CPayload.int64Addr v)

/-- SetData for String, call_as_c_void (wrapper.rs lines 220-231): convert
the owned string to a NUL-terminated CString, failing with Null on an
embedded NUL byte before the callback runs, otherwise pass the address of
a pointer to the buffer. -/
def stringCallAsCVoid {T : Type} (s : String)
    (f : CPayload → List NCall × Except Error T) :
    List NCall × Except Error T :=
  match CString.make s with
  | Except.error e => ([], Except.error (Error.fromNulError e))
  | Except.ok c => f (CPayload.strPtrAddr c)

/-- SetData for a borrowed str slice, call_as_c_void (wrapper.rs lines
265-276): identical staging to the owned String implementation. -/
def strSliceCallAsCVoid {T : Type} (s : String)
    (f : CPayload → List NCall × Except Error T) :
    List NCall × Except Error T :=
  match CString.make s with
  | Except.error e => ([], Except.error (Error.fromNulError e))
  | Except.ok c => f (CPayload.strPtrAddr c)

/-- The default GetData::get_from_c_void (wrapper.rs lines 127-133). The
MaybeUninit storage is an Option: none is uninitialized. The callback
receives the storage, writes (or not) through the pointer, and returns a
status; on error the function short-circuits and the storage is dropped,
otherwise assume_init is modelled by returning the final storage contents
(a none here would be the undefined behavior the short-circuit exists to
prevent). -/
def get_from_c_void {α : Type}
    (f : Option α → Option α × (List NCall × Except Error Unit)) :
    List NCall × Except Error (Option α) :=
  match f none with
  | (_, (t, Except.error e)) => (t, Except.error e)
  | (st, (t, Except.ok _)) => (t, Except.ok st)

/-- Mpv::set_property (wrapper.rs lines 412-420), generic over the SetData
implementation (the call argument) and its format tag. The environment
maps the property name, numeric format tag and staged payload to the
status code mpv_set_property would return. -/
def Mpv.set_property {α : Type}
    (call : α → (CPayload → List NCall × Except Error Unit) →
      List NCall × Except Error Unit)
    (fmt : Format) (env : String → Nat → CPayload → Int)
    (name : String) (data : α) : List NCall × Except Error Unit :=
  match CString.make name with
  | Except.error e => ([], Except.error (Error.fromNulError e))
  | Except.ok cname =>
    call data (fun ptr =>
      ([NCall.setProperty cname fmt.as_mpv_format ptr],
        mpv_err () (env cname fmt.as_mpv_format ptr)))

/-- Mpv::get_property (wrapper.rs lines 424-433), generic over the GetData
implementation (the getFrom argument) and its format tag. The environment
maps the property name and numeric format tag to what mpv_get_property
writes into the output buffer and the status code it returns. -/
def Mpv.get_property {α : Type}
    (getFrom : (Option α → Option α × (List NCall × Except Error Unit)) →
      List NCall × Except Error (Option α))
    (fmt : Format) (env : String → Nat → Option α × Int)
    (name : String) : List NCall × Except Error (Option α) :=
  match CString.make name with
  | Except.error e => ([], Except.error (Error.fromNulError e))
  | Except.ok cname =>
    getFrom (fun _ =>
      let (written, status) := env cname fmt.as_mpv_format
      (written,
        ([NCall.getProperty cname fmt.as_mpv_format],
          mpv_err () status)))

/-- The responses of the native layer during construction: the loaded API
version mpv_client_api_version reports, whether mpv_create returns a
non-null context, and the status code mpv_initialize returns. -/
structure NativeEnv where
  loadedApiVersion : Nat
  createOk : Bool
  initStatus : Int
  deriving Repr, DecidableEq

/-- Mpv::new (wrapper.rs lines 352-375). linked is the compile-time
MPV_CLIENT_API_VERSION constant of the linked bindings. Order: query the
loaded version and fail with VersionMismatch on any difference; create the
context and fail with Null when it is null; initialize it and on a
non-zero status terminate-and-destroy the partial context before returning
the Raw error. -/
def Mpv.new (linked : Nat) (env : NativeEnv) :
    List NCall × Except Error Unit :=
  if linked ≠ env.loadedApiVersion then
    ([NCall.clientApiVersion],
      Except.error (Error.VersionMismatch linked env.loadedApiVersion))
  else if ¬ env.createOk then
    ([NCall.clientApiVersion, NCall.create], Except.error Error.Null)
  else if env.initStatus ≠ 0 then
    ([NCall.clientApiVersion, NCall.create, NCall.initCtx,
        NCall.terminateDestroy],
      Except.error (Error.Raw env.initStatus))
  else
    ([NCall.clientApiVersion, NCall.create, NCall.initCtx], Except.ok ())

/-- FileState (wrapper.rs lines 301-308): how a file is inserted into the
playlist. -/
inductive FileState where
  | Replace
  | Append
  | AppendPlay
  deriving Repr, DecidableEq

/-- FileState::val (wrapper.rs lines 311-317). -/
def FileState.val : FileState → String
  | FileState.Replace => "replace"
  | FileState.Append => "append"
  | FileState.AppendPlay => "append-play"

/-- One entry of the files slice of playlist_load_files: path, file state,
optional per-file options. -/
abbrev PLEntry := String × FileState × Option String

/-- The argument tokens playlist_load_files builds for one entry
(wrapper.rs lines 692-697): the quoted path, the file-state token, and the
options string with the empty string standing in for absent options. -/
def loadfileCmdArgs (entry : PLEntry) : List String :=
  ["\"" ++ entry.1 ++ "\"", entry.2.1.val, (entry.2.2).getD ""]

/-- The single command invocation the playlist_load_files loop body makes
for one entry (wrapper.rs lines 694-697). -/
def loadfileRun (env : String → Int) (e : PLEntry) :
    List NCall × Except Error Unit :=
  Mpv.command env "loadfile" (loadfileCmdArgs e)

/-- The loop of Mpv::playlist_load_files (wrapper.rs lines 691-705),
carrying the running enumeration index: issue one loadfile command per
entry in order, and on the first failure stop and wrap the cause in a
Loadfiles error holding that index. -/
def playlistLoadFrom (env : String → Int) :
    Nat → List PLEntry → List NCall × Except Error Unit
  | _, [] => ([], Except.ok ())
  | i, e :: rest =>
    let r := loadfileRun env e
    match r.2 with
    | Except.error err => (r.1, Except.error (Error.Loadfiles i err))
    | Except.ok _ =>
      let next := playlistLoadFrom env (i + 1) rest
      (r.1 ++ next.1, next.2)

/-- Mpv::playlist_load_files (wrapper.rs lines 687-707): run the loop over
the whole list starting at index 0. -/
def Mpv.playlist_load_files (env : String → Int) (files : List PLEntry) :
    List NCall × Except Error Unit :=
  playlistLoadFrom env 0 files

/-- Mpv::subtitle_add_select (wrapper.rs lines 758-772). none is a panic:
a language was given without a title. Every other combination issues one
sub-add command and returns its result. -/
def Mpv.subtitle_add_select (env : String → Int) (path : String)
    (title lang : Option String) :
    Option (List NCall × Except Error Unit) :=
  match title, lang with
  | none, none =>
    some (Mpv.command env "sub-add" ["\"" ++ path ++ "\"", "select"])
  | some t, none =>
    some (Mpv.command env "sub-add" ["\"" ++ path ++ "\"", "select", t])
  | none, some _ => none
  | some t, some l =>
    some (Mpv.command env "sub-add" ["\"" ++ path ++ "\"", "select", t, l])

/-- Mpv::subtitle_add_auto (wrapper.rs lines 782-796). none is a panic: a
language was given without a title. Every other combination issues one
sub-add command and returns its result. -/
def Mpv.subtitle_add_auto (env : String → Int) (path : String)
    (title lang : Option String) :
    Option (List NCall × Except Error Unit) :=
  match title, lang with
  | none, none =>
    some (Mpv.command env "sub-add" ["\"" ++ path ++ "\"", "auto"])
  | some t, none =>
    some (Mpv.command env "sub-add" ["\"" ++ path ++ "\"", "auto", t])
  | some t, some l =>
    some (Mpv.command env "sub-add" ["\"" ++ path ++ "\"", "auto", t, l])
  | none, some _ => none

/-- GetData for f64, get_format (wrapper.rs lines 148-153). -/
def f64GetFormat : Format := Format.Double

/-- SetData for f64, get_format (wrapper.rs lines 155-160). -/
def f64SetFormat : Format := Format.Double

/-- GetData for i64, get_format (wrapper.rs lines 162-167). -/
def i64GetFormat : Format := Format.Int64

/-- SetData for i64, get_format (wrapper.rs lines 169-174). -/
def i64SetFormat : Format := Format.Int64

/-- GetData for bool, get_format (wrapper.rs lines 184-187). -/
def boolGetFormat : Format := Format.Flag

/-- SetData for bool, get_format (wrapper.rs lines 197-200). -/
def boolSetFormat : Format := Format.Flag

/-- GetData for String, get_format (wrapper.rs lines 214-217). -/
def stringGetFormat : Format := Format.String

/-- SetData for String, get_format (wrapper.rs lines 227-230). -/
def stringSetFormat : Format := Format.String

/-- GetData for MpvStr, get_format (wrapper.rs lines 259-262). -/
def mpvStrGetFormat : Format := Format.String

/-- SetData for a borrowed str slice, get_format (wrapper.rs lines
272-275). -/
def strSliceSetFormat : Format := Format.String

/-- Spec-side description of the command builder output (spec section 4.6):
every argument token prefixed by a single space, concatenated in order,
with nothing appended after the last token. Compared against the
code-derived Mpv.commandText. -/
def spacePrefixedJoin : List String → String
  | [] => ""
  | a :: as => " " ++ a ++ spacePrefixedJoin as

/-- General shape of the assembled command text: the fold of Mpv::command
equals the name followed by the space-prefixed join of the tokens. -/
theorem commandText_eq_join (name : String) (args : List String) :
    Mpv.commandText name args = name ++ spacePrefixedJoin args := by
  induction args generalizing name with
  | nil =>
      apply String.ext
      simp [Mpv.commandText, spacePrefixedJoin]
  | cons a as ih =>
      have h1 : Mpv.commandText name (a :: as) =
          Mpv.commandText (name ++ " " ++ a) as := rfl
      rw [h1, ih]
      apply String.ext
      simp [spacePrefixedJoin]

/-- C4: for every command name and ordered argument tokens, Mpv::command
assembles exactly the name followed by each token prefixed by a single
space with no trailing separator; for seek with tokens 5 and relative the
text is exactly seek 5 relative, and with no tokens it is the name
alone. -/
theorem command_builder_space_joined (name : String) (args : List String) :
    Mpv.commandText name args = name ++ spacePrefixedJoin args
    ∧ Mpv.commandText "seek" ["5", "relative"] = "seek 5 relative"
    ∧ Mpv.commandText name [] = name :=
  ⟨commandText_eq_join name args, by decide, rfl⟩

/-- C1: the bool write path stages a fresh native integer, 1 for true and
0 for false, and hands the callback the address of that integer, never the
address of the bool itself; through set_property the native call receives
exactly that widened payload. -/
theorem bool_set_widens_to_int64_before_address (b : Bool) :
    (∀ (T : Type) (f : CPayload → List NCall × Except Error T),
        boolCallAsCVoid b f = f (CPayload.int64Addr (boolNativeRepr b)))
    ∧ boolNativeRepr true = 1 ∧ boolNativeRepr false = 0
    ∧ (∀ b' : Bool,
        CPayload.int64Addr (boolNativeRepr b) ≠ CPayload.boolAddr b')
    ∧ (∀ (env : String → Nat → CPayload → Int) (name : String),
        hasNul name = false →
        Mpv.set_property boolCallAsCVoid boolSetFormat env name b =
          ([NCall.setProperty name boolSetFormat.as_mpv_format
              (CPayload.int64Addr (boolNativeRepr b))],
            mpv_err () (env name boolSetFormat.as_mpv_format
              (CPayload.int64Addr (boolNativeRepr b))))) := by
  refine ⟨fun T f => rfl, rfl, rfl, fun b' => by simp, ?_⟩
  intro env name h
  simp [Mpv.set_property, CString.make, h, boolCallAsCVoid]

/-- Witness for C1 at the input true with property name pause and a native
layer answering status 0. -/
theorem bool_set_widens_to_int64_before_address_witness :
    Mpv.set_property boolCallAsCVoid boolSetFormat (fun _ _ _ => 0)
        "pause" true =
      ([NCall.setProperty "pause" boolSetFormat.as_mpv_format
          (CPayload.int64Addr (boolNativeRepr true))],
        mpv_err () 0) :=
  (bool_set_widens_to_int64_before_address true).2.2.2.2
    (fun _ _ _ => 0) "pause" (by decide)

/-- C2: Mpv::new checks the version first and returns VersionMismatch with
both versions and no further native call on a difference; a null context
from create yields Null with no further native call; a non-zero initialize
status triggers terminate-and-destroy on the partial context before the
Raw error is returned. -/
theorem mpv_new_version_create_init_order (linked : Nat) (env : NativeEnv) :
    (linked ≠ env.loadedApiVersion →
      Mpv.new linked env =
        ([NCall.clientApiVersion],
          Except.error (Error.VersionMismatch linked env.loadedApiVersion)))
    ∧ (linked = env.loadedApiVersion → env.createOk = false →
      Mpv.new linked env =
        ([NCall.clientApiVersion, NCall.create], Except.error Error.Null))
    ∧ (linked = env.loadedApiVersion → env.createOk = true →
        env.initStatus ≠ 0 →
      Mpv.new linked env =
        ([NCall.clientApiVersion, NCall.create, NCall.initCtx,
            NCall.terminateDestroy],
          Except.error (Error.Raw env.initStatus))) := by
  refine ⟨fun h => ?_, fun h hc => ?_, fun h hc hi => ?_⟩
  · simp [Mpv.new, h]
  · simp [Mpv.new, h, hc]
  · simp [Mpv.new, h, hc, hi]

/-- Witness for C2: the three failure paths at concrete versions and
native responses. -/
theorem mpv_new_version_create_init_order_witness :
    Mpv.new 1 ⟨2, true, 0⟩ =
      ([NCall.clientApiVersion],
        Except.error (Error.VersionMismatch 1 2))
    ∧ Mpv.new 1 ⟨1, false, 0⟩ =
      ([NCall.clientApiVersion, NCall.create], Except.error Error.Null)
    ∧ Mpv.new 1 ⟨1, true, 5⟩ =
      ([NCall.clientApiVersion, NCall.create, NCall.initCtx,
          NCall.terminateDestroy],
        Except.error (Error.Raw 5)) :=
  ⟨(mpv_new_version_create_init_order 1 ⟨2, true, 0⟩).1 (by decide),
   (mpv_new_version_create_init_order 1 ⟨1, false, 0⟩).2.1 rfl rfl,
   (mpv_new_version_create_init_order 1 ⟨1, true, 5⟩).2.2 rfl rfl
     (by decide)⟩

/-- C6: mpv_err yields the value exactly when the status code is 0 and
otherwise the Raw variant holding the code unchanged; in the default read
path a callback error short-circuits get_from_c_void so the staged
uninitialized storage is never returned. -/
theorem mpv_err_zero_iff_ok_and_get_short_circuits :
    (∀ (α : Type) (ret : α) (err : Int),
        (mpv_err ret err = Except.ok ret ↔ err = 0)
        ∧ (∀ e, mpv_err ret err = Except.error e ↔
            err ≠ 0 ∧ e = Error.Raw err))
    ∧ (∀ (α : Type)
        (f : Option α → Option α × (List NCall × Except Error Unit))
        (st : Option α) (t : List NCall) (e : Error),
        f none = (st, (t, Except.error e)) →
        get_from_c_void f = (t, Except.error e)) := by
  refine ⟨fun α ret err => ⟨?_, fun e => ?_⟩, fun α f st t e h => ?_⟩
  · by_cases h0 : err = 0 <;> simp [mpv_err, h0]
  · by_cases h0 : err = 0 <;> simp [mpv_err, h0, eq_comm]
  · simp [get_from_c_void, h]

/-- Witness for C6: a callback that reports failure without touching the
storage makes the default read path return that failure. -/
theorem mpv_err_zero_iff_ok_and_get_short_circuits_witness :
    get_from_c_void (fun _ => ((none : Option Nat),
        (([] : List NCall), Except.error Error.Null))) =
      ([], Except.error Error.Null) :=
  mpv_err_zero_iff_ok_and_get_short_circuits.2 Nat
    (fun _ => (none, ([], Except.error Error.Null))) none [] Error.Null rfl

/-- C7: every implementing type reports a fixed Format value from its
zero-argument get_format, and the Format-to-native-tag map is total over
the four variants and injective. -/
theorem format_map_total_injective_and_stable :
    f64GetFormat = Format.Double ∧ f64SetFormat = Format.Double
    ∧ i64GetFormat = Format.Int64 ∧ i64SetFormat = Format.Int64
    ∧ boolGetFormat = Format.Flag ∧ boolSetFormat = Format.Flag
    ∧ stringGetFormat = Format.String ∧ stringSetFormat = Format.String
    ∧ mpvStrGetFormat = Format.String ∧ strSliceSetFormat = Format.String
    ∧ Format.String.as_mpv_format = mpvFormatString
    ∧ Format.Flag.as_mpv_format = mpvFormatFlag
    ∧ Format.Int64.as_mpv_format = mpvFormatInt64
    ∧ Format.Double.as_mpv_format = mpvFormatDouble
    ∧ (∀ a b : Format, a.as_mpv_format = b.as_mpv_format ↔ a = b) := by
  refine ⟨rfl, rfl, rfl, rfl, rfl, rfl, rfl, rfl, rfl, rfl,
    rfl, rfl, rfl, rfl, fun a b => ?_⟩
  cases a <;> cases b <;> decide

theorem playlistLoadFrom_all_ok (env : String → Int) (files : List PLEntry) :
    ∀ i, (∀ x ∈ files, (loadfileRun env x).2 = Except.ok ()) →
    playlistLoadFrom env i files =
      ((files.map (fun x => (loadfileRun env x).1)).flatten, Except.ok ()) := by
  induction files with
  | nil => intro i _; simp [playlistLoadFrom]
  | cons e rest ih =>
      intro i h
      have he : (loadfileRun env e).2 = Except.ok () := h e (by simp)
      have hr : ∀ x ∈ rest, (loadfileRun env x).2 = Except.ok () :=
        fun x hx => h x (by simp [hx])
      simp only [playlistLoadFrom, he, ih (i + 1) hr, List.map_cons,
        List.flatten_cons]

theorem playlistLoadFrom_first_fail (env : String → Int) (e : PLEntry)
    (rest : List PLEntry) (cause : Error) (pre : List PLEntry) :
    ∀ i, (∀ x ∈ pre, (loadfileRun env x).2 = Except.ok ()) →
    (loadfileRun env e).2 = Except.error cause →
    playlistLoadFrom env i (pre ++ e :: rest) =
      ((pre.map (fun x => (loadfileRun env x).1)).flatten ++ (loadfileRun env e).1,
        Except.error (Error.Loadfiles (i + pre.length) cause)) := by
  induction pre with
  | nil =>
      intro i _ he
      simp only [List.nil_append, playlistLoadFrom, he, List.map_nil,
        List.flatten_nil, List.length_nil, Nat.add_zero]
  | cons p ps ih =>
      intro i hpre he
      have hp : (loadfileRun env p).2 = Except.ok () := hpre p (by simp)
      have hps : ∀ x ∈ ps, (loadfileRun env x).2 = Except.ok () :=
        fun x hx => hpre x (by simp [hx])
      simp only [List.cons_append, playlistLoadFrom, hp]
      rw [show ps.append (e :: rest) = ps ++ e :: rest from rfl,
        ih (i + 1) hps he]
      simp only [List.map_cons, List.flatten_cons, List.append_assoc,
        List.length_cons, Prod.mk.injEq, Error.Loadfiles.injEq, true_and,
        and_true]
      have harith : i + 1 + ps.length = i + (ps.length + 1) := by omega
      rw [harith]

theorem playlist_load_files_first_failure_index :
    (∀ (env : String → Int) (pre : List PLEntry) (e : PLEntry)
        (rest : List PLEntry) (cause : Error),
      (∀ x ∈ pre, (loadfileRun env x).2 = Except.ok ()) →
      (loadfileRun env e).2 = Except.error cause →
      Mpv.playlist_load_files env (pre ++ e :: rest) =
        ((pre.map (fun x => (loadfileRun env x).1)).flatten ++
            (loadfileRun env e).1,
          Except.error (Error.Loadfiles pre.length cause)))
    ∧ (∀ (env : String → Int) (files : List PLEntry),
      (∀ x ∈ files, (loadfileRun env x).2 = Except.ok ()) →
      Mpv.playlist_load_files env files =
        ((files.map (fun x => (loadfileRun env x).1)).flatten,
          Except.ok ())) := by
  constructor
  · intro env pre e rest cause hpre he
    have h := playlistLoadFrom_first_fail env e rest cause pre 0 hpre he
    simpa [Mpv.playlist_load_files] using h
  · intro env files h
    simpa [Mpv.playlist_load_files] using playlistLoadFrom_all_ok env files 0 h

theorem playlist_load_files_first_failure_index_witness :
    Mpv.playlist_load_files
        (fun s => if s = "loadfile \"b\" replace " then -1 else 0)
        [("a", FileState.Replace, none), ("b", FileState.Replace, none),
          ("c", FileState.Replace, none)] =
      ([NCall.commandString "loadfile \"a\" replace ",
          NCall.commandString "loadfile \"b\" replace "],
        Except.error (Error.Loadfiles 1 (Error.Raw (-1)))) := by
  have h := playlist_load_files_first_failure_index.1
    (fun s => if s = "loadfile \"b\" replace " then -1 else 0)
    [("a", FileState.Replace, none)] ("b", FileState.Replace, none)
    [("c", FileState.Replace, none)] (Error.Raw (-1))
    (by intro x hx; rw [List.mem_singleton] at hx; subst hx; rfl) rfl
  simpa using h

theorem embedded_nul_rejected_before_native_call :
    (∀ e : NulError, Error.fromNulError e = Error.Null)
    ∧ (∀ (env : String → Int) (name : String) (args : List String),
        hasNul (Mpv.commandText name args) = true →
        Mpv.command env name args = ([], Except.error Error.Null))
    ∧ (∀ (α : Type)
        (call : α → (CPayload → List NCall × Except Error Unit) →
          List NCall × Except Error Unit)
        (fmt : Format) (env : String → Nat → CPayload → Int)
        (name : String) (data : α),
        hasNul name = true →
        Mpv.set_property call fmt env name data =
          ([], Except.error Error.Null))
    ∧ (∀ (α : Type)
        (getFrom : (Option α → Option α × (List NCall × Except Error Unit)) →
          List NCall × Except Error (Option α))
        (fmt : Format) (env : String → Nat → Option α × Int)
        (name : String),
        hasNul name = true →
        Mpv.get_property getFrom fmt env name =
          ([], Except.error Error.Null))
    ∧ (∀ (env : String → Nat → CPayload → Int) (name v : String),
        hasNul name = false → hasNul v = true →
        Mpv.set_property stringCallAsCVoid stringSetFormat env name v =
          ([], Except.error Error.Null))
    ∧ (∀ (env : String → Nat → CPayload → Int) (name v : String),
        hasNul name = false → hasNul v = true →
        Mpv.set_property strSliceCallAsCVoid strSliceSetFormat env name v =
          ([], Except.error Error.Null)) := by
  refine ⟨fun e => rfl, ?_, ?_, ?_, ?_, ?_⟩
  · intro env name args h
    simp [Mpv.command, CString.make, h, Error.fromNulError]
  · intro α call fmt env name data h
    simp [Mpv.set_property, CString.make, h, Error.fromNulError]
  · intro α getFrom fmt env name h
    simp [Mpv.get_property, CString.make, h, Error.fromNulError]
  · intro env name v hn hv
    simp [Mpv.set_property, CString.make, hn, hv, stringCallAsCVoid,
      Error.fromNulError]
  · intro env name v hn hv
    simp [Mpv.set_property, CString.make, hn, hv, strSliceCallAsCVoid,
      Error.fromNulError]

theorem embedded_nul_rejected_before_native_call_witness :
    Mpv.command (fun _ => 0) ("ab".push (Char.ofNat 0)) [] =
      ([], Except.error Error.Null)
    ∧ Mpv.set_property stringCallAsCVoid stringSetFormat (fun _ _ _ => 0)
        "vo" ("ab".push (Char.ofNat 0)) = ([], Except.error Error.Null) :=
  ⟨embedded_nul_rejected_before_native_call.2.1 (fun _ => 0)
      ("ab".push (Char.ofNat 0)) [] (by decide),
    embedded_nul_rejected_before_native_call.2.2.2.2.1 (fun _ _ _ => 0)
      "vo" ("ab".push (Char.ofNat 0)) (by decide) (by decide)⟩

theorem subtitle_add_panics_iff_lang_without_title (env : String → Int)
    (path : String) (title lang : Option String) :
    (Mpv.subtitle_add_select env path title lang = none ↔
      title = none ∧ lang.isSome = true)
    ∧ (Mpv.subtitle_add_auto env path title lang = none ↔
      title = none ∧ lang.isSome = true)
    ∧ (¬ (title = none ∧ lang.isSome = true) →
        (∃ args, Mpv.subtitle_add_select env path title lang =
          some (Mpv.command env "sub-add" args))
        ∧ (∃ args, Mpv.subtitle_add_auto env path title lang =
          some (Mpv.command env "sub-add" args))) := by
  cases title with
  | none =>
    cases lang with
    | none =>
      exact ⟨by simp [Mpv.subtitle_add_select],
        by simp [Mpv.subtitle_add_auto],
        fun _ => ⟨⟨_, rfl⟩, ⟨_, rfl⟩⟩⟩
    | some l =>
      exact ⟨by simp [Mpv.subtitle_add_select],
        by simp [Mpv.subtitle_add_auto],
        fun h => absurd ⟨rfl, rfl⟩ h⟩
  | some t =>
    cases lang with
    | none =>
      exact ⟨by simp [Mpv.subtitle_add_select],
        by simp [Mpv.subtitle_add_auto],
        fun _ => ⟨⟨_, rfl⟩, ⟨_, rfl⟩⟩⟩
    | some l =>
      exact ⟨by simp [Mpv.subtitle_add_select],
        by simp [Mpv.subtitle_add_auto],
        fun _ => ⟨⟨_, rfl⟩, ⟨_, rfl⟩⟩⟩

theorem subtitle_add_panics_iff_lang_without_title_witness :
    Mpv.subtitle_add_select (fun _ => 0) "p" none (some "de") = none
    ∧ (∃ args, Mpv.subtitle_add_select (fun _ => 0) "p" (some "t") none =
        some (Mpv.command (fun _ => 0) "sub-add" args)) :=
  ⟨(subtitle_add_panics_iff_lang_without_title (fun _ => 0) "p" none
      (some "de")).1.mpr ⟨rfl, rfl⟩,
    ((subtitle_add_panics_iff_lang_without_title (fun _ => 0) "p" (some "t")
      none).2.2 (by simp)).1⟩

theorem loadfile_absent_options_trailing_space (env : String → Int)
    (path : String) (st : FileState) :
    loadfileCmdArgs (path, st, none) = ["\"" ++ path ++ "\"", st.val, ""]
    ∧ Mpv.commandText "loadfile" (loadfileCmdArgs (path, st, none)) =
        "loadfile \"" ++ path ++ "\" " ++ st.val ++ " "
    ∧ (∃ pre, Mpv.commandText "loadfile" (loadfileCmdArgs (path, st, none)) =
        pre ++ " ")
    ∧ (hasNul ("loadfile \"" ++ path ++ "\" " ++ st.val ++ " ") = false →
        (Mpv.playlist_load_files env [(path, st, none)]).1 =
          [NCall.commandString
            ("loadfile \"" ++ path ++ "\" " ++ st.val ++ " ")]) := by
  have htext : Mpv.commandText "loadfile" (loadfileCmdArgs (path, st, none)) =
      "loadfile \"" ++ path ++ "\" " ++ st.val ++ " " := by
    apply String.ext
    simp [Mpv.commandText, loadfileCmdArgs]
  refine ⟨rfl, htext,
    ⟨"loadfile \"" ++ path ++ "\" " ++ st.val, htext⟩, ?_⟩
  intro h
  by_cases h0 : env ("loadfile \"" ++ path ++ "\" " ++ st.val ++ " ") = 0 <;>
    simp [Mpv.playlist_load_files, playlistLoadFrom, loadfileRun, Mpv.command,
      htext, CString.make, h, mpv_err, h0]

theorem loadfile_absent_options_trailing_space_witness :
    (Mpv.playlist_load_files (fun _ => 0)
        [("f", FileState.Append, none)]).1 =
      [NCall.commandString "loadfile \"f\" append "] := by
  have h := (loadfile_absent_options_trailing_space (fun _ => 0) "f"
    FileState.Append).2.2.2 (by decide)
  simpa using h
